import Mathlib

/-!
Shallow embedding of the `lsi_tcp` control-loop runtime (Python) in Lean 4:
the controller parameter map (`BaseController`), the shared saturation
helper, the proportional controller, the periodic setpoint schedule
(`SetpointProfile`), and the simulated FOPDT plant (`FakeTCLabSystem` /
`BaseTCLabSystem`).  Numeric values are modelled as `ℚ`; Python `None`
(for an absent saturation bound, or a `None` parameter value) is `Option`.
-/

namespace LsiTcp

/-! ### Controller parameter map (`BaseController._parameters`) -/

/-- A parameter value: `none` models Python `None`, `some q` a numeric value. -/
abbrev PVal := Option ℚ

/-- The ordered parameter mapping `self._parameters` (Python dicts preserve
insertion order), as an association list of `(name, value)` pairs. -/
abbrev Params := List (String × PVal)

/-- Errors raised by `BaseController.setParameters`. -/
inductive PErr where
  | valueError : PErr
  | keyError : PErr
  | typeError : PErr
deriving DecidableEq, Repr

/-- Dictionary lookup: first binding of `name`, if any. -/
def pLookup (p : Params) (name : String) : Option PVal :=
  match p with
  | [] => none
  | (n, v) :: rest => if n = name then some v else pLookup rest name

/-- `name in dict` (Python membership test). -/
def pHasKey (p : Params) (name : String) : Bool :=
  (pLookup p name).isSome

/-- `parameter_dict.get(name, default)`. -/
def pGetD (d : Params) (name : String) (default : PVal) : PVal :=
  match pLookup d name with
  | some v => v
  | none => default

/-- The current value of attribute `name` on the controller instance.  After
construction the attributes `sampling_period`, `u_min`, `u_max` always mirror
the entries of `self._parameters` (the constructor and `setParameters` write
both in lockstep), so we read them from the map; a missing key yields `none`. -/
def pAttr (p : Params) (name : String) : PVal :=
  (pLookup p name).getD none

/-- `self._parameters[name] = value` on an existing key (in-place update of an
association list, preserving order and all other bindings). -/
def pUpdate (p : Params) (name : String) (value : PVal) : Params :=
  match p with
  | [] => []
  | e :: rest => (e.1, if e.1 = name then value else e.2) :: pUpdate rest name value

/-- The Python comparison `x <= 0` on a parameter value:
`None <= 0` raises `TypeError`. -/
def leZeroCheck (x : PVal) : Except PErr Bool :=
  match x with
  | none => Except.error PErr.typeError
  | some q => Except.ok (decide (q ≤ 0))

/-- The joint validation phase of `BaseController.setParameters`: compute the
prospective `sampling_period`, `u_min`, `u_max` (supplied entry, else current
attribute) and check `sampling_period > 0` and, when both bounds are non-`None`,
`u_min < u_max`.  Returns `some err` when the call raises before applying
anything. -/
def validateParams (p : Params) (d : Params) : Option PErr :=
  let new_sp := pGetD d "sampling_period" (pAttr p "sampling_period")
  let new_umin := pGetD d "u_min" (pAttr p "u_min")
  let new_umax := pGetD d "u_max" (pAttr p "u_max")
  match leZeroCheck new_sp with
  | Except.error e => some e
  | Except.ok true => some PErr.valueError
  | Except.ok false =>
    match new_umin, new_umax with
    | some a, some b => if a ≥ b then some PErr.valueError else none
    | _, _ => none

/-- The application loop of `setParameters`: for each `(name, value)` pair in
dictionary order, raise `KeyError` if `name` is not a known parameter,
otherwise store the value.  A raised `KeyError` propagates, leaving the
entries already processed applied (Python mutates in place). -/
def applyLoop (d : Params) (p : Params) : Option PErr × Params :=
  match d with
  | [] => (none, p)
  | (name, value) :: rest =>
    if pHasKey p name then applyLoop rest (pUpdate p name value)
    else (some PErr.keyError, p)

/-- `BaseController.setParameters(parameter_dict)`: validate the prospective
merged numeric state, then apply entries one by one.  Returns the raised
error (if any) together with the parameter state after the call. -/
def setParameters (p : Params) (d : Params) : Option PErr × Params :=
  match validateParams p d with
  | some e => (some e, p)
  | none => applyLoop d p

/-- `getListOfParameters`: the key list of the parameter map. -/
def keysOf (p : Params) : List String := p.map Prod.fst

/-! ### Saturation helper (`BaseController._apply_saturation`) -/

/-- `BaseController._apply_saturation(u)`: clamp low first, then high; a
`none` bound is not applied. -/
def applySaturation (u_min u_max : Option ℚ) (u : ℚ) : ℚ :=
  match u_min, u_max with
  | some m, some M => if u < m then m else if u > M then M else u
  | some m, none => if u < m then m else u
  | none, some M => if u > M then M else u
  | none, none => u

/-! ### Proportional controller (`PController`) -/

/-- The state of a `PController` relevant to `computeControlAction`:
its gain and saturation bounds. -/
structure PController where
  Kp : ℚ
  u_min : Option ℚ
  u_max : Option ℚ

/-- `PController.computeControlAction(reference, measure, feedforward)`:
error, proportional feedback, feedforward sum, saturation. -/
def computeControlAction (c : PController) (reference measure feedforward : ℚ) : ℚ :=
  let error := reference - measure
  let u_fb := c.Kp * error
  let u := u_fb + feedforward
  applySaturation c.u_min c.u_max u

/-! ### Setpoint schedule (`SetpointProfile`) -/

/-- One `(t, T1, T2)` row of the setpoint CSV. -/
structure SetpointSample where
  t : ℚ
  T1 : ℚ
  T2 : ℚ
deriving DecidableEq, Repr

/-- A constructed `SetpointProfile`: its (time-sorted) sample list, the
period `t_end` (last sample's time) and the interpolation flag. -/
structure SetpointProfile where
  samples : List SetpointSample
  t_end : ℚ
  interpolate : Bool

/-- Python float `%` for a positive modulus: `a % b = a - b * ⌊a / b⌋`. -/
def pyMod (a b : ℚ) : ℚ := a - b * ⌊a / b⌋

/-- The scan of `get_setpoints` over `samples[1:]`, carrying the previous
sample: find the first `s` with `t_mod ≤ s.t`; hold `prev` (ZOH) or
interpolate between `prev` and `s`; when the list is exhausted, return the
last sample's values (which is `prev` at that point). -/
def spScan (interp : Bool) (t_mod : ℚ) (prev : SetpointSample) :
    List SetpointSample → ℚ × ℚ
  | [] => (prev.T1, prev.T2)
  | s :: rest =>
    if t_mod ≤ s.t then
      if !interp then (prev.T1, prev.T2)
      else
        let dt := s.t - prev.t
        if dt ≤ 0 then (prev.T1, prev.T2)
        else
          let alpha := (t_mod - prev.t) / dt
          (prev.T1 + alpha * (s.T1 - prev.T1), prev.T2 + alpha * (s.T2 - prev.T2))
    else spScan interp t_mod s rest

/-- `SetpointProfile.get_setpoints(t)`.  The constructor guarantees a
non-empty sample list; the empty case (unreachable on constructed profiles)
returns `(0, 0)`. -/
def getSetpoints (p : SetpointProfile) (t : ℚ) : ℚ × ℚ :=
  let t' := if t < 0 then 0 else t
  let t_mod := pyMod t' p.t_end
  match p.samples with
  | [] => (0, 0)
  | s0 :: rest =>
    if t_mod ≤ s0.t then (s0.T1, s0.T2)
    else spScan p.interpolate t_mod s0 rest

/-- The two-row schedule `[(0,10,20),(5,30,40)]` in zero-order-hold mode. -/
def demoProfileZOH : SetpointProfile :=
  { samples := [⟨0, 10, 20⟩, ⟨5, 30, 40⟩], t_end := 5, interpolate := false }

/-- The two-row schedule `[(0,10,20),(5,30,40)]` in interpolation mode. -/
def demoProfileInterp : SetpointProfile :=
  { samples := [⟨0, 10, 20⟩, ⟨5, 30, 40⟩], t_end := 5, interpolate := true }

/-! ### Simulated plant (`BaseTCLabSystem` / `FakeTCLabSystem`) -/

/-- FOPDT model parameters of a `FakeTCLabSystem`:
per-channel gain `K`, time constant `tau`, dead time `L`, and the shared
ambient temperature `Tamb`. -/
structure FakeParams where
  K1 : ℚ
  tau1 : ℚ
  L1 : ℚ
  K2 : ℚ
  tau2 : ℚ
  L2 : ℚ
  Tamb : ℚ
deriving DecidableEq, Repr

/-- The mutable state of a `FakeTCLabSystem`: channel temperatures, the
last-written commands (`self.u1`, `self.u2`, stored by
`writeControlCommands`), and the per-channel dead-time FIFOs. -/
structure FakeLab where
  T1 : ℚ
  T2 : ℚ
  u1 : ℚ
  u2 : ℚ
  u1_queue : List ℚ
  u2_queue : List ℚ
deriving DecidableEq, Repr

/-- Python 3 `round` on a rational value: round half to even. -/
def pyRound (q : ℚ) : ℤ :=
  let f := ⌊q⌋
  let r := q - (f : ℚ)
  if r < 1/2 then f
  else if 1/2 < r then f + 1
  else if f % 2 = 0 then f else f + 1

/-- The dead-time queue length `max(1, int(round(L / dt))) if L > 0 else 1`
computed by `FakeTCLabSystem._initialize_lab`. -/
def nDelay (L dt : ℚ) : ℤ :=
  if 0 < L then max 1 (pyRound (L / dt)) else 1

/-- `FakeTCLabSystem._initialize_lab`: temperatures start at ambient, the
commands at 0, and each dead-time queue is `[0.0] * n_delay` with `n_delay`
computed from the channel's dead time and the nominal step
`dt = log_interval if log_interval > 0 else 1.0`. -/
def initFakeLab (P : FakeParams) (log_interval : ℚ) : FakeLab :=
  let dt := if 0 < log_interval then log_interval else 1
  { T1 := P.Tamb, T2 := P.Tamb, u1 := 0, u2 := 0,
    u1_queue := List.replicate (nDelay P.L1 dt).toNat 0,
    u2_queue := List.replicate (nDelay P.L2 dt).toNat 0 }

/-- `FakeTCLabSystem._advance_model(dt)`: a no-op for `dt ≤ 0`; otherwise
pop the head of each dead-time queue and append the last-written command,
take the new head as the delayed command, and perform one explicit Euler
step of `dT/dt = (-(T - Tamb) + K * u_delayed) / tau` on each channel whose
`tau` is positive. -/
def advanceModel (P : FakeParams) (dt : ℚ) (s : FakeLab) : FakeLab :=
  if dt ≤ 0 then s
  else
    let q1 := s.u1_queue.tail ++ [s.u1]
    let q2 := s.u2_queue.tail ++ [s.u2]
    let u1_delayed := q1.headI
    let u2_delayed := q2.headI
    let T1' := if 0 < P.tau1 then s.T1 + dt / P.tau1 * (-(s.T1 - P.Tamb) + P.K1 * u1_delayed)
               else s.T1
    let T2' := if 0 < P.tau2 then s.T2 + dt / P.tau2 * (-(s.T2 - P.Tamb) + P.K2 * u2_delayed)
               else s.T2
    { s with T1 := T1', T2 := T2', u1_queue := q1, u2_queue := q2 }

/-- `BaseTCLabSystem.writeControlCommands(u1, u2)`: clamp each command into
`[0, 100]` as `max(0, min(100, u))`, store the clamped values (the fake
plant's `_apply_control` is a no-op), and return them. -/
def writeControlCommands (s : FakeLab) (c1 c2 : ℚ) : FakeLab × ℚ × ℚ :=
  let u1 := max 0 (min 100 c1)
  let u2 := max 0 (min 100 c2)
  ({ s with u1 := u1, u2 := u2 }, u1, u2)

/-- The model-advance performed by `FakeTCLabSystem.readProcessVariables`:
one `_advance_model` step with `dt = log_interval if log_interval > 0 else 1.0`. -/
def readAdvance (P : FakeParams) (log_interval : ℚ) (s : FakeLab) : FakeLab :=
  advanceModel P (if 0 < log_interval then log_interval else 1) s

/-- A run of the simulated plant: tick `j + 1` writes command `u (j + 1)` to
channel 1 (and 0 to channel 2) via `writeControlCommands`, then performs the
`readProcessVariables` model advance.  `fakeRun P li u s0 j` is the plant
state after `j` ticks. -/
def fakeRun (P : FakeParams) (log_interval : ℚ) (u : ℕ → ℚ) (s0 : FakeLab) : ℕ → FakeLab
  | 0 => s0
  | j + 1 =>
    readAdvance P log_interval
      (writeControlCommands (fakeRun P log_interval u s0 j) (u (j + 1)) 0).1

/-- A step input on channel 1: command 0 through tick `k`, command `U`
from tick `k + 1` on (the step is written at tick `k`). -/
def uStep (k : ℕ) (U : ℚ) (j : ℕ) : ℚ :=
  if j ≤ k then 0 else U

/-- The delayed command driving channel 1's ODE at the tick that produced
state `s`: the head of the dead-time queue after the pop/append of that
tick's `_advance_model` call. -/
def u1DelayedOf (s : FakeLab) : ℚ := s.u1_queue.headI

/-- The constructor invariant on the saturation bounds
(`BaseController.__init__` raises unless `u_min < u_max` when both are
non-`None`), as a decidable check. -/
def boundsOk (u_min u_max : Option ℚ) : Bool :=
  match u_min, u_max with
  | some m, some M => decide (m < M)
  | _, _ => true

/-- The parameter state obtained by applying a list of `(name, value)`
entries in order via `pUpdate` (the effect of the portion of the
`setParameters` loop that ran before an exception, if any). -/
def applyEntries (p : Params) (d : Params) : Params :=
  d.foldl (fun acc e => pUpdate acc e.1 e.2) p

/-- A concrete proportional-controller parameter state as built by
`PController.__init__(sampling_period=1, Kp=1, u_min=0, u_max=100)`. -/
def pctrlParams : Params :=
  [("sampling_period", some 1), ("u_min", some 0), ("u_max", some 100), ("Kp", some 1)]

/-- A dictionary holding one valid entry followed by one unknown key. -/
def mixedDict : Params := [("Kp", some 5), ("bogus", some 1)]

/-- The dictionary `{"u_min": 50, "u_max": 10}`, violating `u_min < u_max`. -/
def invalidBoundsDict : Params := [("u_min", some 50), ("u_max", some 10)]

/-- The FOPDT parameters `K1=1, tau1=10, L1=0, Tamb=20` (channel 2 at the
constructor defaults `K2=0.5, tau2=120, L2=15`). -/
def unitFopdtParams : FakeParams :=
  { K1 := 1, tau1 := 10, L1 := 0, K2 := 1/2, tau2 := 120, L2 := 15, Tamb := 20 }

/-- Channel 1's temperature after `n` ticks of the simulated plant under the
constant command `u = 20` (written through `writeControlCommands` each
tick), integration step `dt`. -/
def constCmdTemp (P : FakeParams) (dt : ℚ) (n : ℕ) : ℚ :=
  (fakeRun P dt (fun _ => 20) (initFakeLab P dt) n).T1

/-- FOPDT parameters with channel 1's dead time equal to three sample
intervals (`dt = 1`), the other fields at the constructor defaults. -/
def stepTestParams : FakeParams :=
  { K1 := 4/5, tau1 := 100, L1 := 3, K2 := 1/2, tau2 := 120, L2 := 15, Tamb := 23 }

/-! ### Helper lemmas -/

/-- `pUpdate` never adds or removes keys. -/
theorem keysOf_pUpdate (p : Params) (n : String) (v : PVal) :
    keysOf (pUpdate p n v) = keysOf p := by
  induction p with
  | nil => rfl
  | cons e rest ih => simpa [pUpdate, keysOf] using ih

/-- `pLookup` finds a key in the updated map exactly when it finds it in the
original map. -/
theorem pLookup_pUpdate_isSome (p : Params) (n : String) (v : PVal) (m : String) :
    (pLookup (pUpdate p n v) m).isSome = (pLookup p m).isSome := by
  induction p with
  | nil => rfl
  | cons e rest ih =>
    by_cases hm : e.1 = m <;> simp [pUpdate, pLookup, hm, ih]

/-- Key presence is invariant under `pUpdate`. -/
theorem pHasKey_pUpdate (p : Params) (n : String) (v : PVal) (m : String) :
    pHasKey (pUpdate p n v) m = pHasKey p m := by
  simp only [pHasKey]
  exact pLookup_pUpdate_isSome p n v m

/-- The application loop of `setParameters` never changes the key list. -/
theorem applyLoop_keys (d : Params) : ∀ p : Params, keysOf (applyLoop d p).2 = keysOf p := by
  induction d with
  | nil => intro p; rfl
  | cons e rest ih =>
    intro p
    by_cases h : pHasKey p e.1
    · simp only [applyLoop, h, if_true]
      rw [ih (pUpdate p e.1 e.2), keysOf_pUpdate]
    · simp [applyLoop, h]

/-- When the dictionary holds an unknown key, the application loop raises
`KeyError` after applying exactly the entries preceding the first unknown
key. -/
theorem applyLoop_unknown_key (d : Params) :
    ∀ p : Params, (∃ e ∈ d, pHasKey p e.1 = false) →
      applyLoop d p =
        (some PErr.keyError, applyEntries p (d.takeWhile (fun e => pHasKey p e.1))) := by
  induction d with
  | nil => intro p h; simp at h
  | cons e rest ih =>
    intro p h
    by_cases he : pHasKey p e.1
    · have hrest : ∃ x ∈ rest, pHasKey (pUpdate p e.1 e.2) x.1 = false := by
        obtain ⟨x, hx, hxbad⟩ := h
        rcases List.mem_cons.mp hx with hxe | hxrest
        · rw [hxe] at hxbad; rw [hxbad] at he; exact absurd he (by simp)
        · exact ⟨x, hxrest, by rw [pHasKey_pUpdate]; exact hxbad⟩
      have hpred : (fun x : String × PVal => pHasKey (pUpdate p e.1 e.2) x.1)
          = (fun x : String × PVal => pHasKey p x.1) :=
        funext fun x => pHasKey_pUpdate p e.1 e.2 x.1
      simp only [applyLoop, he, if_true]
      rw [ih (pUpdate p e.1 e.2) hrest, hpred]
      simp [List.takeWhile, he, applyEntries]
    · simp only [applyLoop, he, if_false]
      have : pHasKey p e.1 = false := by simpa using he
      simp [List.takeWhile, this, applyEntries]

/-! ### Claim theorems -/

/-- C3: on the schedule `[(0,10,20),(5,30,40)]`, zero-order hold gives
`get_setpoints(3) = (10,20)` and `get_setpoints(5) = (10,20)` (the boundary
value), `get_setpoints(5.0001)` wraps around to the first sample `(10,20)`,
and linear interpolation gives `get_setpoints(2.5) = (20,30)`. -/
theorem claim3_schedule_lookup :
    getSetpoints demoProfileZOH 3 = (10, 20) ∧
    getSetpoints demoProfileZOH 5 = (10, 20) ∧
    getSetpoints demoProfileZOH (50001/10000) = (10, 20) ∧
    getSetpoints demoProfileInterp (5/2) = (20, 30) := by
  refine ⟨?_, ?_, ?_, ?_⟩ <;>
    norm_num [getSetpoints, demoProfileZOH, demoProfileInterp, pyMod, spScan]

/-- C4: under the constructor invariant (`u_min < u_max` when both bounds
are present), `_apply_saturation` lands in `[u_min, u_max]` whenever both
bounds are present, and it is idempotent (also with one or both bounds
absent). -/
theorem claim4_saturation (u_min u_max : Option ℚ)
    (hvalid : boundsOk u_min u_max = true) (u : ℚ) :
    (∀ m M, u_min = some m → u_max = some M →
      m ≤ applySaturation u_min u_max u ∧ applySaturation u_min u_max u ≤ M) ∧
    applySaturation u_min u_max (applySaturation u_min u_max u)
      = applySaturation u_min u_max u := by
  cases u_min with
  | none =>
    cases u_max with
    | none => simp [applySaturation]
    | some M =>
      refine ⟨fun m M' hm hM => Option.noConfusion hm, ?_⟩
      simp only [applySaturation]
      split_ifs with h1 h2 <;> rfl
  | some m =>
    cases u_max with
    | none =>
      refine ⟨fun m' M hm hM => Option.noConfusion hM, ?_⟩
      simp only [applySaturation]
      split_ifs with h1 h2 <;> rfl
    | some M =>
      have hmM : m < M := by simpa [boundsOk] using hvalid
      constructor
      · intro m' M' hm hM
        cases hm; cases hM
        simp only [applySaturation]
        split_ifs with h1 h2 <;> constructor <;> linarith
      · simp only [applySaturation]
        split_ifs with h1 h2 h3 h4 h5 h6 <;> first | rfl | linarith

/-- C4 witness: the saturation properties at `u_min = 0`, `u_max = 100`,
`u = 150`. -/
theorem claim4_saturation_witness :
    boundsOk (some 0) (some 100) = true ∧
    ((0:ℚ) ≤ applySaturation (some 0) (some 100) 150 ∧
      applySaturation (some 0) (some 100) 150 ≤ 100) ∧
    applySaturation (some 0) (some 100) (applySaturation (some 0) (some 100) 150)
      = applySaturation (some 0) (some 100) 150 := by
  have h := claim4_saturation (some 0) (some 100) (by decide) 150
  exact ⟨by decide, h.1 0 100 rfl rfl, h.2⟩

/-- C5: `PController.computeControlAction` returns
`saturate(Kp * (reference - measure) + feedforward)`; with zero error and
zero feedforward it returns `saturate(0)`. -/
theorem claim5_proportional (c : PController) (reference measure feedforward r : ℚ) :
    computeControlAction c reference measure feedforward
      = applySaturation c.u_min c.u_max (c.Kp * (reference - measure) + feedforward) ∧
    computeControlAction c r r 0 = applySaturation c.u_min c.u_max 0 := by
  refine ⟨rfl, ?_⟩
  unfold computeControlAction
  norm_num

/-- C8: `setParameters({"u_min": 50, "u_max": 10})` always fails (the merged
state violates `u_min < u_max`, checked before applying anything) and leaves
the parameter state unchanged, whatever the prior state. -/
theorem claim8_invalid_bounds_rejected (p : Params) :
    (setParameters p invalidBoundsDict).1.isSome = true ∧
    (setParameters p invalidBoundsDict).2 = p := by
  have h1 : pGetD invalidBoundsDict "sampling_period" (pAttr p "sampling_period")
      = pAttr p "sampling_period" := rfl
  have h2 : pGetD invalidBoundsDict "u_min" (pAttr p "u_min") = some 50 := rfl
  have h3 : pGetD invalidBoundsDict "u_max" (pAttr p "u_max") = some 10 := rfl
  have hv : (validateParams p invalidBoundsDict).isSome = true := by
    simp only [validateParams, h1, h2, h3]
    cases leZeroCheck (pAttr p "sampling_period") with
    | error e => rfl
    | ok b => cases b with
      | true => rfl
      | false => decide
  unfold setParameters
  cases h : validateParams p invalidBoundsDict with
  | none => rw [h] at hv; simp at hv
  | some e => simp

/-- C9: no call to `setParameters` (successful or failing) ever changes the
key list of the parameter map — values may change, keys are never added or
deleted. -/
theorem claim9_keys_never_change (p d : Params) :
    keysOf (setParameters p d).2 = keysOf p := by
  unfold setParameters
  cases h : validateParams p d with
  | some e => rfl
  | none => exact applyLoop_keys d p

/-- C10: `writeControlCommands` never rejects its inputs: it clamps each
command into `[0, 100]` as `max(0, min(100, u))`, stores the clamped values,
and returns the clamped pair. -/
theorem claim10_write_clamps (s : FakeLab) (c1 c2 : ℚ) :
    (writeControlCommands s c1 c2).2 = (max 0 (min 100 c1), max 0 (min 100 c2)) ∧
    ((writeControlCommands s c1 c2).1).u1 = (writeControlCommands s c1 c2).2.1 ∧
    ((writeControlCommands s c1 c2).1).u2 = (writeControlCommands s c1 c2).2.2 ∧
    0 ≤ (writeControlCommands s c1 c2).2.1 ∧ (writeControlCommands s c1 c2).2.1 ≤ 100 ∧
    0 ≤ (writeControlCommands s c1 c2).2.2 ∧ (writeControlCommands s c1 c2).2.2 ≤ 100 := by
  refine ⟨rfl, rfl, rfl, le_max_left _ _, ?_, le_max_left _ _, ?_⟩ <;>
    exact max_le (by norm_num) (min_le_left _ _)

/-- C1 counterexample: `setParameters` is not atomic.  On a proportional
controller's parameter state, the dictionary `{"Kp": 5, "bogus": 1}` raises
`KeyError` (the key `bogus` is unknown), yet the valid entry preceding it
has already been applied: `Kp` ends up `5`, not its prior value `1`. -/
theorem claim1_counterexample :
    (setParameters pctrlParams mixedDict).1 = some PErr.keyError ∧
    pLookup (setParameters pctrlParams mixedDict).2 "Kp" = some (some 5) ∧
    pLookup pctrlParams "Kp" = some (some 1) ∧
    (setParameters pctrlParams mixedDict).2 ≠ pctrlParams := by decide

/-- C1 (amended): a dictionary containing a key absent from the instance's
key set always fails, but not atomically: when the numeric validation
passes, the call raises `KeyError` and the entries preceding the first
unknown key (in dictionary iteration order) have been applied; the prior
state is untouched only when the unknown key precedes every valid entry. -/
theorem claim1_unknown_key_partial_effect (p d : Params)
    (hbad : ∃ e ∈ d, pHasKey p e.1 = false) :
    (setParameters p d).1.isSome = true ∧
    (validateParams p d = none →
      setParameters p d =
        (some PErr.keyError, applyEntries p (d.takeWhile (fun e => pHasKey p e.1)))) := by
  unfold setParameters
  cases hv : validateParams p d with
  | some e => exact ⟨rfl, fun h => absurd h (by simp)⟩
  | none =>
    rw [applyLoop_unknown_key d p hbad]
    exact ⟨rfl, fun _ => rfl⟩

/-- C1 witness: the amended claim evaluated on the proportional controller's
parameter state and the dictionary `{"Kp": 5, "bogus": 1}`. -/
theorem claim1_witness :
    (∃ e ∈ mixedDict, pHasKey pctrlParams e.1 = false) ∧
    ((setParameters pctrlParams mixedDict).1.isSome = true ∧
     (validateParams pctrlParams mixedDict = none →
       setParameters pctrlParams mixedDict =
         (some PErr.keyError,
           applyEntries pctrlParams
             (mixedDict.takeWhile (fun e => pHasKey pctrlParams e.1))))) :=
  ⟨by decide, claim1_unknown_key_partial_effect pctrlParams mixedDict (by decide)⟩

/-- C6: for every schedule (with its constructor-guaranteed positive period)
and every `t ≥ 0`, `get_setpoints(t + k * t_end) = get_setpoints(t)` for all
natural `k`: the schedule repeats forever with period `t_end`. -/
theorem claim6_periodicity (p : SetpointProfile) (t : ℚ) (k : ℕ)
    (ht : 0 ≤ t) (hend : 0 < p.t_end) :
    getSetpoints p (t + k * p.t_end) = getSetpoints p t := by
  have he : p.t_end ≠ 0 := ne_of_gt hend
  have h1 : ¬ (t < 0) := not_lt.mpr ht
  have h2 : ¬ (t + (k : ℚ) * p.t_end < 0) := by
    push_neg
    have hk : 0 ≤ (k : ℚ) * p.t_end := mul_nonneg (Nat.cast_nonneg k) hend.le
    linarith
  have hmod : pyMod (t + (k : ℚ) * p.t_end) p.t_end = pyMod t p.t_end := by
    unfold pyMod
    have hdiv : (t + (k : ℚ) * p.t_end) / p.t_end = t / p.t_end + (k : ℕ) := by
      field_simp
    rw [hdiv, Int.floor_add_nat]
    push_cast
    ring
  simp only [getSetpoints, if_neg h1, if_neg h2, hmod]

/-- C6 witness: the periodicity theorem on the demo schedule at `t = 3`,
`k = 2`. -/
theorem claim6_periodicity_witness :
    (0:ℚ) ≤ 3 ∧ 0 < demoProfileZOH.t_end ∧
    getSetpoints demoProfileZOH (3 + (2:ℕ) * demoProfileZOH.t_end)
      = getSetpoints demoProfileZOH 3 :=
  ⟨by decide, by decide, claim6_periodicity demoProfileZOH 3 2 (by decide) (by decide)⟩

/-- C2: with channel 1's dead time equal to `3 * dt`, the queue length fixed
at construction is `round(dead_time / dt)` = 3 (with the minimum-1 rule),
and a step in the commanded `u` written at tick `k` (command 0 through tick
`k`, `U` afterwards) first appears in the ODE's driving term `u_delayed` at
tick `k + 3` and at no earlier tick. -/
theorem claim2_dead_time (P : FakeParams) (dt : ℚ) (k : ℕ) (U : ℚ)
    (hdt : 0 < dt) (hL : P.L1 = 3 * dt) (hU0 : 0 ≤ U) (hU100 : U ≤ 100) :
    nDelay P.L1 dt = 3 ∧
    ∀ j : ℕ, u1DelayedOf (fakeRun P dt (uStep k U) (initFakeLab P dt) j)
      = if k + 3 ≤ j then U else 0 := by
  have hdtne : dt ≠ 0 := ne_of_gt hdt
  have hnd : nDelay P.L1 dt = 3 := by
    rw [hL]
    unfold nDelay
    rw [if_pos (by linarith)]
    rw [show (3 * dt) / dt = 3 by field_simp]
    norm_num [pyRound]
  refine ⟨hnd, ?_⟩
  have hclamp : ∀ i, max 0 (min 100 (uStep k U i)) = uStep k U i := by
    intro i
    by_cases h : i ≤ k <;> simp only [uStep, h, if_pos, if_neg, if_true, if_false]
    · norm_num
    · rw [min_eq_right hU100, max_eq_right hU0]
  have hcs0 : uStep k U 0 = 0 := by simp [uStep, Nat.zero_le]
  have key : ∀ j, (fakeRun P dt (uStep k U) (initFakeLab P dt) j).u1 = uStep k U j ∧
      (fakeRun P dt (uStep k U) (initFakeLab P dt) j).u1_queue
        = [uStep k U (j - 2), uStep k U (j - 1), uStep k U j] := by
    intro j
    induction j with
    | zero =>
      constructor
      · simp [fakeRun, initFakeLab, hcs0]
      · simp only [fakeRun, initFakeLab, if_pos hdt, hnd, hcs0]
        rfl
    | succ j ih =>
      have e2 : j + 1 - 2 = j - 1 := by omega
      have e1 : j + 1 - 1 = j := by omega
      constructor
      · simp [fakeRun, readAdvance, advanceModel, writeControlCommands,
          if_pos hdt, not_le.mpr hdt, hclamp]
      · simp only [fakeRun, readAdvance, advanceModel, writeControlCommands,
          if_pos hdt, if_neg (not_le.mpr hdt), e1, e2, hclamp, ih.2]
        rfl
  intro j
  rw [u1DelayedOf, (key j).2]
  simp only [List.headI]
  by_cases h : k + 3 ≤ j
  · rw [if_pos h]
    have hj : ¬ (j - 2 ≤ k) := by omega
    simp [uStep, hj]
  · rw [if_neg h]
    have hj : j - 2 ≤ k := by omega
    simp [uStep, hj]

/-- C2 witness: the dead-time theorem at `dt = 1`, step written at tick 5,
amplitude `U = 7`. -/
theorem claim2_dead_time_witness :
    ((0:ℚ) < 1 ∧ stepTestParams.L1 = 3 * 1 ∧ (0:ℚ) ≤ 7 ∧ (7:ℚ) ≤ 100) ∧
    (nDelay stepTestParams.L1 1 = 3 ∧
      ∀ j : ℕ,
        u1DelayedOf (fakeRun stepTestParams 1 (uStep 5 7) (initFakeLab stepTestParams 1) j)
          = if 5 + 3 ≤ j then 7 else 0) :=
  ⟨⟨by decide, by simp [stepTestParams], by decide, by decide⟩,
    claim2_dead_time stepTestParams 1 5 7 (by decide) (by simp [stepTestParams]) (by decide)
      (by decide)⟩

/-- C7 counterexample: with `K=1, tau=10, L=0, Tamb=20` and the configured
sample interval `dt = 20`, the first Euler step under the constant command
`u = 20` jumps from 20 to 60, overshooting the equilibrium 40 — the claimed
monotone, non-overshooting approach fails for `dt > tau`. -/
theorem claim7_counterexample :
    constCmdTemp unitFopdtParams 20 0 = 20 ∧
    constCmdTemp unitFopdtParams 20 0 ≤ 40 ∧
    constCmdTemp unitFopdtParams 20 1 = 60 ∧
    ¬ (constCmdTemp unitFopdtParams 20 1 ≤ 40) := by
  refine ⟨?_, ?_, ?_, ?_⟩ <;>
    norm_num [constCmdTemp, fakeRun, readAdvance, advanceModel, writeControlCommands,
      initFakeLab, nDelay, unitFopdtParams]

/-- C7 (amended): with `K=1, tau=10, L=0, Tamb=20` and a configured sample
interval satisfying `0 < dt ≤ tau`, the per-read Euler update under the
constant command `u = 20` approaches `Tamb + K*u = 40` monotonically without
overshoot (`T_n ≤ 40 → T_n ≤ T_{n+1} ≤ 40`) and converges to 40. -/
theorem claim7_monotone_convergence (P : FakeParams) (dt : ℚ)
    (hdt : 0 < dt) (hdtau : dt ≤ 10)
    (hK : P.K1 = 1) (htau : P.tau1 = 10) (hL : P.L1 = 0) (hTamb : P.Tamb = 20) :
    (∀ n, constCmdTemp P dt n ≤ 40 →
      constCmdTemp P dt n ≤ constCmdTemp P dt (n + 1) ∧ constCmdTemp P dt (n + 1) ≤ 40) ∧
    (∀ ε : ℚ, 0 < ε → ∃ N, ∀ n, N ≤ n → |constCmdTemp P dt n - 40| < ε) := by
  set r : ℚ := 1 - dt / 10 with hr
  have hr0 : 0 ≤ r := by rw [hr]; linarith
  have hr1 : r < 1 := by rw [hr]; linarith
  have key : ∀ n, constCmdTemp P dt n = 40 - 20 * r ^ n ∧
      (fakeRun P dt (fun _ => 20) (initFakeLab P dt) n).u1_queue
        = [if n = 0 then 0 else 20] := by
    intro n
    induction n with
    | zero =>
      constructor
      · norm_num [constCmdTemp, fakeRun, initFakeLab, hTamb]
      · simp [fakeRun, initFakeLab, hL, nDelay]
    | succ n ih =>
      have hq : (fakeRun P dt (fun _ => 20) (initFakeLab P dt) n).u1_queue.tail = [] := by
        rw [ih.2]
        rfl
      constructor
      · have hTn := ih.1
        simp only [constCmdTemp, fakeRun, readAdvance, advanceModel, writeControlCommands,
          if_pos hdt, if_neg (not_le.mpr hdt)] at hTn ⊢
        rw [htau, hK, hTamb, if_pos (by norm_num : (0:ℚ) < 10), hq]
        norm_num
        rw [hTn, pow_succ, hr]
        ring
      · simp only [fakeRun, readAdvance, advanceModel, writeControlCommands,
          if_pos hdt, if_neg (not_le.mpr hdt), hq]
        norm_num
  constructor
  · intro n hn
    have h1 := (key n).1
    have h2 := (key (n + 1)).1
    have hrn : 0 ≤ r ^ n := pow_nonneg hr0 n
    have hrn1 : 0 ≤ r ^ (n + 1) := pow_nonneg hr0 (n + 1)
    have hstep : r ^ (n + 1) ≤ r ^ n := by
      rw [pow_succ]
      nlinarith
    constructor
    · rw [h1, h2]; linarith
    · rw [h2]; linarith
  · intro ε hε
    obtain ⟨N, hN⟩ := exists_pow_lt_of_lt_one (show (0:ℚ) < ε / 20 by positivity) hr1
    refine ⟨N, fun n hn => ?_⟩
    rw [(key n).1]
    have h1 : r ^ n ≤ r ^ N := pow_le_pow_of_le_one hr0 (le_of_lt hr1) hn
    have h2 : 0 ≤ r ^ n := pow_nonneg hr0 n
    rw [show (40 - 20 * r ^ n - 40 : ℚ) = -(20 * r ^ n) by ring, abs_neg,
      abs_of_nonneg (by positivity)]
    linarith

/-- C7 witness: the amended theorem at `dt = 1` (the shipped default sample
interval), evaluated at `n = 0` and `ε = 1`. -/
theorem claim7_monotone_convergence_witness :
    ((0:ℚ) < 1 ∧ (1:ℚ) ≤ 10 ∧ unitFopdtParams.K1 = 1 ∧ unitFopdtParams.tau1 = 10 ∧
      unitFopdtParams.L1 = 0 ∧ unitFopdtParams.Tamb = 20) ∧
    (∀ n, constCmdTemp unitFopdtParams 1 n ≤ 40 →
      constCmdTemp unitFopdtParams 1 n ≤ constCmdTemp unitFopdtParams 1 (n + 1) ∧
      constCmdTemp unitFopdtParams 1 (n + 1) ≤ 40) ∧
    (∀ ε : ℚ, 0 < ε → ∃ N, ∀ n, N ≤ n → |constCmdTemp unitFopdtParams 1 n - 40| < ε) :=
  ⟨⟨by decide, by decide, rfl, rfl, rfl, rfl⟩,
    claim7_monotone_convergence unitFopdtParams 1 (by decide) (by decide) rfl rfl rfl rfl⟩

end LsiTcp
